import Mathlib

/-!
Verification of the streaming-event normalization pipeline of the
`dpz-killer-app` repository, embedded shallowly from
`backend/app/api/routes/chat.py` (class `MASStreamingClient`) and
`chat-app/services/mas_normalizer.py` (function `normalize`).

JSON values decoded by `json.loads` are modelled by the inductive `JVal`;
Python dicts become association lists (keys unique in practice, first match
wins on lookup).  A Python code path that raises inside the per-frame
`try`/`except` yields no further events for that frame; where no event was
yielded before the raise, the path is modelled as producing `[]`, and where
the raise aborts chart extraction it is modelled by the `PyEval.raised`
marker.
-/

/-- JSON value, the result of `json.loads` on a frame payload. -/
inductive JVal where
  | null : JVal
  | bool : Bool → JVal
  | num : Int → JVal
  | str : String → JVal
  | arr : List JVal → JVal
  | obj : List (String × JVal) → JVal
deriving Repr

/-- Lookup in an association list modelling a Python dict (first match wins). -/
def lookupField : List (String × JVal) → String → Option JVal
  | [], _ => none
  | (k', v) :: rest, k => if k' = k then some v else lookupField rest k

/-- `d.get(k)` on a Python dict; `none` on non-dicts (callers guard or raise). -/
def jGet : JVal → String → Option JVal
  | .obj fs, k => lookupField fs k
  | _, _ => none

/-- `k in d` for a Python dict given as fields. -/
def hasKey (fs : List (String × JVal)) (k : String) : Bool :=
  (lookupField fs k).isSome

/-- Python truthiness of a JSON value. -/
def truthy : JVal → Bool
  | .null => false
  | .bool b => b
  | .num n => n ≠ 0
  | .str s => s ≠ ""
  | .arr xs => !xs.isEmpty
  | .obj fs => !fs.isEmpty

/-- Truthiness of an optional value (`d.get(k)` result; absent key is `None`). -/
def truthyO : Option JVal → Bool
  | none => false
  | some v => truthy v

/-- Whether `v[:n]` is legal Python: strings and lists slice, every other
JSON value raises `TypeError`.  Several log calls slice a value inside an
eagerly evaluated f-string, so a truthy non-sliceable value raises there. -/
def sliceable : JVal → Bool
  | .str _ => true
  | .arr _ => true
  | _ => false

mutual

/-- Python `repr` of a JSON value (as produced for values decoded by
`json.loads`): strings quoted, `None`/`True`/`False` capitalized. -/
def pyRepr : JVal → String
  | .null => "None"
  | .bool true => "True"
  | .bool false => "False"
  | .num n => toString n
  | .str s => "\x27" ++ s ++ "\x27"
  | .arr xs => "[" ++ pyReprList xs ++ "]"
  | .obj fs => "\x7b" ++ pyReprFields fs ++ "\x7d"

/-- `repr` of the elements of a Python list, comma separated. -/
def pyReprList : List JVal → String
  | [] => ""
  | [x] => pyRepr x
  | x :: xs => pyRepr x ++ ", " ++ pyReprList xs

/-- `repr` of the items of a Python dict, comma separated. -/
def pyReprFields : List (String × JVal) → String
  | [] => ""
  | [(k, v)] => "\x27" ++ k ++ "\x27: " ++ pyRepr v
  | (k, v) :: fs => "\x27" ++ k ++ "\x27: " ++ pyRepr v ++ ", " ++ pyReprFields fs

end

/-- Python `str()` of a JSON value (`str` on a string is the identity,
otherwise it agrees with `repr`). -/
def pyStr : JVal → String
  | .str s => s
  | v => pyRepr v

/-! ## Transport reader: SSE line reassembly (chat.py lines 250-264)

The reader appends each network chunk to a text buffer and repeatedly
splits off the part before the first `"\n"` as a complete line, leaving
the trailing partial line in the buffer.  Text is modelled as `List Char`.
-/

/-- Split off every complete (newline-terminated) line of a buffer, in order,
returning the lines (without their terminators) and the trailing partial
line left in the buffer.  This is the effect of the
`while "\n" in buffer: line, buffer = buffer.split("\n", 1)` loop. -/
def extractLines : List Char → List (List Char) × List Char
  | [] => ([], [])
  | c :: cs =>
    let r := extractLines cs
    if c = '\n' then ([] :: r.1, r.2)
    else
      match r.1 with
      | [] => ([], c :: r.2)
      | l :: ls => ((c :: l) :: ls, r.2)

/-- The reader's buffering loop over a list of network chunks: starting from
the buffer `buf`, append each chunk in turn and drain all complete lines.
Returns all lines emitted, in order, and the final buffer contents. -/
def feedFrom (buf : List Char) : List (List Char) → List (List Char) × List Char
  | [] => ([], buf)
  | c :: cs =>
    let r := extractLines (buf ++ c)
    let rest := feedFrom r.2 cs
    (r.1 ++ rest.1, rest.2)

/-- Processing of a whole chunked stream, starting from an empty buffer. -/
def processStream (chunks : List (List Char)) : List (List Char) × List Char :=
  feedFrom [] chunks

theorem extractLines_no_newline (s : List Char) (h : '\n' ∉ s) :
    extractLines s = ([], s) := by
  induction s with
  | nil => rfl
  | cons c cs ih =>
    simp only [List.mem_cons, not_or] at h
    simp [extractLines, ih h.2, Ne.symm h.1]

theorem extractLines_buffer_no_newline (s : List Char) :
    '\n' ∉ (extractLines s).2 := by
  induction s with
  | nil => simp [extractLines]
  | cons c cs ih =>
    by_cases hc : c = '\n'
    · simpa [extractLines, hc] using ih
    · cases hl : (extractLines cs).1 with
      | nil =>
        simp only [extractLines, hc, if_false, hl]
        intro hmem
        rcases List.mem_cons.mp hmem with h | h
        · exact hc h.symm
        · exact ih h
      | cons l ls => simpa [extractLines, hc, hl] using ih

theorem extractLines_append (a b : List Char) :
    extractLines (a ++ b) =
      ((extractLines a).1 ++ (extractLines ((extractLines a).2 ++ b)).1,
       (extractLines ((extractLines a).2 ++ b)).2) := by
  induction a with
  | nil => simp [extractLines]
  | cons c cs ih =>
    by_cases hc : c = '\n'
    · simp [extractLines, hc, ih]
    · cases hl : (extractLines cs).1 with
      | nil =>
        cases hx : (extractLines ((extractLines cs).2 ++ b)).1 with
        | nil => simp [extractLines, hc, ih, hl, hx, List.cons_append]
        | cons l ls => simp [extractLines, hc, ih, hl, hx, List.cons_append]
      | cons l ls => simp [extractLines, hc, ih, hl, List.cons_append]

theorem feedFrom_eq (cs : List (List Char)) (buf : List Char)
    (h : '\n' ∉ buf) :
    feedFrom buf cs = extractLines (buf ++ cs.flatten) := by
  induction cs generalizing buf with
  | nil => simp [feedFrom, extractLines_no_newline buf h]
  | cons c cs ih =>
    have hb := extractLines_buffer_no_newline (buf ++ c)
    have hassoc : buf ++ (c :: cs).flatten = (buf ++ c) ++ cs.flatten := by
      simp [List.flatten_cons]
    rw [hassoc, extractLines_append (buf ++ c) cs.flatten]
    simp only [feedFrom, ih _ hb]

/-- C1 -- Line reassembly: for every SSE byte stream and every way of
partitioning it into network chunks (including splits mid-line and
mid-JSON-payload), the transport reader's buffering loop produces exactly
the same sequence of decoded lines as processing the entire stream as one
chunk, and the same trailing partial line is held in the buffer awaiting a
later terminator. -/
theorem stream_chunking_invariance (chunks : List (List Char)) :
    processStream chunks = extractLines chunks.flatten := by
  have h : '\n' ∉ ([] : List Char) := by simp
  simpa [processStream] using feedFrom_eq chunks [] h

/-! ## Genie secondary lookup (chat.py lines 66-133)

`get_genie_coordinates_from_conversation` consults the remote Genie service.
The remote responses are modelled by `GenieEnv`; `RRes` is the outcome of a
remote call (`exn` models the call raising an exception).
-/

/-- Outcome of one remote service call: a value, or a raised exception. -/
inductive RRes (α : Type) where
  | ok : α → RRes α
  | exn : String → RRes α

/-- One entry of `genie.list_messages` (id and status are what the code reads). -/
structure GMsg where
  id : String
  status : String

/-- One attachment of a message's details; `id` is `getattr(a, 'id', None)`. -/
structure GAttachment where
  id : Option String

/-- Full message details from `genie.get_message`; an absent or empty
`attachments` array is falsy, modelled uniformly as `[]`. -/
structure GMsgDetails where
  attachments : List GAttachment

/-- The remote Genie service as seen by the lookup: the result of listing the
conversation's messages, and of fetching one message's details by id. -/
structure GenieEnv where
  listMessages : RRes (List GMsg)
  getMessage : String → RRes GMsgDetails

/-- A complete coordinate set as built by the extractor (`genie_ref`). -/
structure GenieRef where
  spaceId : JVal
  conversationId : JVal
  messageId : JVal
  attachmentId : JVal

/-- First attachment of a details array with a truthy id, as found by the
`for attachment in attachments` loop. -/
def firstTruthyAttachment : List GAttachment → Option String
  | [] => none
  | a :: rest =>
    match a.id with
    | some s => if s ≠ "" then some s else firstTruthyAttachment rest
    | none => firstTruthyAttachment rest

/-- The `for message in reversed(list(messages))` scan over the (already
reversed) message list: skip messages not in `COMPLETED` status, skip a
message whose `get_message` call raises (inner `except ... continue`) or
whose details contain no truthy attachment id, and return coordinates from
the first surviving message. -/
def scanMsgs (env : GenieEnv) (spaceId conversationId : JVal) :
    List GMsg → Option GenieRef
  | [] => none
  | m :: rest =>
    if m.status = "COMPLETED" then
      match env.getMessage m.id with
      | .exn _ => scanMsgs env spaceId conversationId rest
      | .ok det =>
        match firstTruthyAttachment det.attachments with
        | some aid => some ⟨spaceId, conversationId, .str m.id, .str aid⟩
        | none => scanMsgs env spaceId conversationId rest
    else scanMsgs env spaceId conversationId rest

/-- `get_genie_coordinates_from_conversation`: with a truthy `space_id`, list
the conversation's messages and scan them newest-first; with no (or falsy)
`space_id`, or when listing raises (outer `except`), return `None`.  No
exception ever escapes this function. -/
def lookupCoords (env : GenieEnv) (conversationId : JVal)
    (spaceId : Option JVal) : Option GenieRef :=
  match spaceId with
  | some sv =>
    if truthy sv then
      match env.listMessages with
      | .exn _ => none
      | .ok msgs => scanMsgs env sv conversationId msgs.reverse
    else none
  | none => none

/-! ## Chart-reference extraction cascade (chat.py lines 337-438) -/

/-- Result of evaluating a Python expression that may raise inside the
extraction `try` block; `raised` jumps to the `except` at line 437. -/
inductive PyEval (α : Type) where
  | val : α → PyEval α
  | raised : PyEval α

/-- Display metadata (`query_meta`): the dict built at lines 370-374; each
key is always present, with value `None` (here `.null`) when absent from
the query object. -/
structure QMeta where
  title : JVal
  description : JVal
  queryText : JVal

/-- Lines 349-351: `attachment_id` from `genie_obj["attachments"][0]` when
`attachments` is a nonempty list; `.get` on a non-dict first element
raises.  Returns the resulting optional value. -/
def attachmentFromList (g : List (String × JVal)) : PyEval (Option JVal) :=
  match lookupField g "attachments" with
  | some (.arr (first :: _)) =>
    match first with
    | .obj ff => .val (lookupField ff "attachment_id")
    | _ => .raised
  | _ => .val none

/-- Lines 367-374: `query_meta` from `genie_obj["attachments"][0]["query"]`.
The guard `"attachments" in genie_obj and genie_obj["attachments"][0].get("query")`
has no list/length check, so a present but non-list or empty `attachments`
raises; a truthy non-dict `query` raises at `query.get`. -/
def queryMetaOf (g : List (String × JVal)) : PyEval (Option QMeta) :=
  match lookupField g "attachments" with
  | none => .val none
  | some (.arr (first :: _)) =>
    match first with
    | .obj ff =>
      match lookupField ff "query" with
      | some qv =>
        if truthy qv then
          match qv with
          | .obj qf => .val (some ⟨(lookupField qf "title").getD (.str "Query Result"),
                                   (lookupField qf "description").getD .null,
                                   (lookupField qf "query_text").getD .null⟩)
          | _ => .raised
        else .val none
      | none => .val none
    | _ => .raised
  | some _ => .raised

/-- Pattern 0 (lines 345-376): a `genie` sub-object carrying `space_id`,
`conversation_id`, `message_id` and an attachment id (from the
`attachments` array, falling back to a direct `attachment_id` field).
Returns the assigned `genie_ref` and `query_meta` (both possibly `None`),
or `raised` when the block raises — including the log f-string at line 358
that slices the attachment id (`attachment_id[:12]`) before `genie_ref` is
assigned, so a truthy non-sliceable attachment id aborts the whole
extraction. -/
def pattern0 (out : List (String × JVal)) :
    PyEval (Option GenieRef × Option QMeta) :=
  match lookupField out "genie" with
  | some (.obj g) =>
    if hasKey g "space_id" && hasKey g "conversation_id" && hasKey g "message_id" then
      match attachmentFromList g with
      | .raised => .raised
      | .val aidFromList =>
        let aid := if truthyO aidFromList then aidFromList
                   else lookupField g "attachment_id"
        if truthyO aid then
          if sliceable (aid.getD .null) then
            match queryMetaOf g with
            | .raised => .raised
            | .val qm =>
              .val (some ⟨(lookupField g "space_id").getD .null,
                          (lookupField g "conversation_id").getD .null,
                          (lookupField g "message_id").getD .null,
                          aid.getD .null⟩, qm)
          else .raised
        else .val (none, none)
    else .val (none, none)
  | _ => .val (none, none)

/-- `all(k in d for k in ["space_id","conversation_id","message_id","attachment_id"])`. -/
def fourKeys (fs : List (String × JVal)) : Bool :=
  hasKey fs "space_id" && hasKey fs "conversation_id" &&
  hasKey fs "message_id" && hasKey fs "attachment_id"

/-- The flat coordinate dict built from four present keys (patterns 1 and 2). -/
def refOfFields (fs : List (String × JVal)) : GenieRef :=
  ⟨(lookupField fs "space_id").getD .null,
   (lookupField fs "conversation_id").getD .null,
   (lookupField fs "message_id").getD .null,
   (lookupField fs "attachment_id").getD .null⟩

/-- Patterns 1-3 (lines 379-417): an `if`/`elif` chain evaluated after
pattern 0 regardless of its outcome.  `some r` means `genie_ref` was
assigned `r` (possibly `None` from a failed lookup, overwriting pattern 0's
value); `none` means no branch assigned and pattern 0's value survives. -/
def laterPatterns (env : GenieEnv) (out : List (String × JVal)) :
    Option (Option GenieRef) :=
  if fourKeys out then some (some (refOfFields out))
  else
    match lookupField out "result" with
    | some (.obj rf) =>
      if fourKeys rf then some (some (refOfFields rf))
      else if hasKey rf "conversation_id" then
        some (lookupCoords env ((lookupField rf "conversation_id").getD .null)
                (lookupField rf "space_id"))
      else none
    | _ =>
      if hasKey out "conversation_id" then
        some (lookupCoords env ((lookupField out "conversation_id").getD .null)
                (lookupField out "space_id"))
      else none

/-- The whole extraction `try` block: pattern 0 then the later chain; a raise
anywhere aborts with no chart (`except` at line 437). -/
def runCascade (env : GenieEnv) (out : List (String × JVal)) :
    Option (GenieRef × Option QMeta) :=
  match pattern0 out with
  | .raised => none
  | .val (g0, qm) =>
    let gref := match laterPatterns env out with
                | some r => r
                | none => g0
    match gref with
    | some r => some (r, qm)
    | none => none

/-! ## Event normalizer (chat.py lines 270-486)

Each successfully decoded frame is classified by the `if`/`elif` chain on
`event_type = event.get("type", "")` (with the OpenAI `choices` fallback
tested before the `response.output_item.added` branch, as in the source)
and yields zero or more normalized event dicts.
-/

/-- The frame discriminator: `event.get("type", "")` compared against string
literals.  A missing or non-string value never equals any of them, hence
`none`. -/
def evType (ev : JVal) : Option String :=
  match jGet ev "type" with
  | some (.str s) => some s
  | _ => none

/-- Build an emitted event dict. -/
def mkObj (fs : List (String × JVal)) : JVal := .obj fs

/-- The chart event dict yielded at lines 426-432: title and subtitle come
from `query_meta` when present (its keys are always populated, possibly
with `None`), else the generic defaults; `query_text` is `None` when no
metadata was found. -/
def mkChartEvent (r : GenieRef) (qm : Option QMeta) : JVal :=
  mkObj [("type", .str "chart.reference"),
         ("genie", .obj [("spaceId", r.spaceId),
                         ("conversationId", r.conversationId),
                         ("messageId", r.messageId),
                         ("attachmentId", r.attachmentId)]),
         ("title", match qm with | some m => m.title | none => .str "Query Result"),
         ("subtitle", match qm with | some m => m.description | none => .str "Click to view chart"),
         ("query_text", match qm with | some m => m.queryText | none => .null)]

/-- The `["genie", "analytics", "sales", "query"]` keyword heuristic:
`any(keyword in tool_name.lower() for keyword in ...)`. -/
def startsWithSeq : List Char → List Char → Bool
  | [], _ => true
  | _ :: _, [] => false
  | a :: as, b :: bs => a = b && startsWithSeq as bs

/-- Substring test on character lists (Python `in` on strings). -/
def hasSubstr (needle : List Char) : List Char → Bool
  | [] => needle.isEmpty
  | c :: hs => startsWithSeq needle (c :: hs) || hasSubstr needle hs

/-- ASCII lowering of one character (`str.lower()`, as relevant to the
ASCII keyword comparison below). -/
def lowerChar (c : Char) : Char :=
  if 65 ≤ c.toNat ∧ c.toNat ≤ 90 then Char.ofNat (c.toNat + 32) else c

/-- Analytics-keyword match on the tool name. -/
def keywordMatch (name : String) : Bool :=
  ["genie", "analytics", "sales", "query"].any
    (fun kw => hasSubstr kw.toList (name.toList.map lowerChar))

/-- Chart events for an analytics tool's dict output: one `chart.reference`
when the cascade yields coordinates, none otherwise (no coordinates found,
or the extraction raised). -/
def chartEvents (env : GenieEnv) (out : List (String × JVal)) : List JVal :=
  match runCascade env out with
  | some (r, qm) => [mkChartEvent r qm]
  | none => []

/-- Branch `event_type == "response.output_text.delta"` (lines 278-285): a
truthy delta is yielded, but the debug f-string slices it (`delta[:50]`)
first, so a truthy non-sliceable delta raises before the yield and the
frame is skipped. -/
def deltaBranch (ev : JVal) : List JVal :=
  if truthy ((jGet ev "delta").getD (.str "")) then
    if sliceable ((jGet ev "delta").getD (.str "")) then
      [mkObj [("type", .str "text.delta"), ("delta", (jGet ev "delta").getD (.str ""))]]
    else []
  else []

/-- Branch `event_type == "response.output_item.done"` (lines 288-310): a
`function_call` item yields a completion `tool.output`; a non-dict `item`
raises at `item.get` and the frame is skipped. -/
def doneBranch (ev : JVal) : List JVal :=
  match (jGet ev "item").getD (.obj []) with
  | .obj itf =>
    match lookupField itf "type" with
    | some (.str "function_call") =>
      [mkObj [("type", .str "tool.output"),
              ("name", (lookupField itf "name").getD (.str "unknown")),
              ("output", .str "Complete")]]
    | _ => []
  | _ => []

/-- Branch `event_type == "response.function_call_result"` /
`"response.tool_result"` (lines 313-440): always yield `tool.output` with
the stringified output, then attempt chart extraction when the tool name
matches the analytics keywords and the output is a dict.  `toolTail` is the
chart-extraction part after the `tool.output` yield: a non-string name
raises at `.lower()` there (after the yield), a non-dict output skips
extraction with a log line. -/
def toolTail (env : GenieEnv) (name output : JVal) : List JVal :=
  match name with
  | .str s =>
    if keywordMatch s then
      match output with
      | .obj outf => chartEvents env outf
      | _ => []
    else []
  | _ => []

/-- The result branch proper: a non-dict `result` raises before any yield;
otherwise the `tool.output` event is yielded, followed by the
chart-extraction tail. -/
def resultBranch (env : GenieEnv) (ev : JVal) : List JVal :=
  match (jGet ev "result").getD (.obj []) with
  | .obj rf =>
    mkObj [("type", .str "tool.output"),
           ("name", (lookupField rf "name").getD (.str "agent")),
           ("output", .str (pyStr ((lookupField rf "output").getD (.str "Complete"))))] ::
      toolTail env ((lookupField rf "name").getD (.str "agent"))
        ((lookupField rf "output").getD (.str "Complete"))
  | _ => []

/-- OpenAI fallback branch `"choices" in event and event["choices"]` (lines
443-452): a text delta from `choices[0].delta.content` when every shape
check passes; every other shape yields nothing (either the membership test
fails or a subscript/`in` raises with no event yielded yet).  The info
f-string slices the content (`content[:50]`), so a truthy non-sliceable
content raises before the yield. -/
def choicesBranch (ev : JVal) : List JVal :=
  match jGet ev "choices" with
  | some (.arr (c :: _)) =>
    match c with
    | .obj cf =>
      match lookupField cf "delta" with
      | some (.obj df) =>
        match lookupField df "content" with
        | some content =>
          if truthy content then
            if sliceable content then
              [mkObj [("type", .str "text.delta"), ("delta", content)]]
            else []
          else []
        | none => []
      | _ => []
    | _ => []
  | _ => []

/-- Branch `event_type == "response.output_item.added"` (lines 455-470): a
`function_call` item yields `tool.call` with the item's name and its
`arguments` value unchanged (defaulting to an empty dict when absent). -/
def addedBranch (ev : JVal) : List JVal :=
  match (jGet ev "item").getD (.obj []) with
  | .obj itf =>
    match lookupField itf "type" with
    | some (.str "function_call") =>
      [mkObj [("type", .str "tool.call"),
              ("name", (lookupField itf "name").getD (.str "unknown")),
              ("args", (lookupField itf "arguments").getD (.obj []))]]
    | _ => []
  | _ => []

/-- Normalization of one successfully decoded frame: the source's `elif`
chain in order, with the `choices` fallback between the result and added
branches, metadata discriminators and unrecognized frames yielding
nothing. -/
def normalizeEvent (env : GenieEnv) (ev : JVal) : List JVal :=
  if evType ev = some "response.output_text.delta" then deltaBranch ev
  else if evType ev = some "response.output_item.done" then doneBranch ev
  else if evType ev = some "response.function_call_result" ∨
          evType ev = some "response.tool_result" then resultBranch env ev
  else if truthyO (jGet ev "choices") then choicesBranch ev
  else if evType ev = some "response.output_item.added" then addedBranch ev
  else []

/-- A frame after the JSON decode attempt: `none` when `json.loads` raised
`JSONDecodeError` (the frame is logged and skipped). -/
def processFrames (env : GenieEnv) (frames : List (Option JVal)) : List JVal :=
  (frames.map (fun f => match f with
    | none => []
    | some ev => normalizeEvent env ev)).flatten

/-- The terminal error event yielded by the outer `except` (lines 488-493). -/
def mkError (msg : String) : JVal :=
  mkObj [("type", .str "error"),
         ("message", .str ("Failed to stream from MAS: " ++ msg))]

/-- One run of `stream_events`, by where the transport failed: before any
frame was read (missing OAuth credentials, token or response
`raise_for_status` on a non-2xx status, connection errors), in the middle
of the stream after some frames, or not at all.  The outer
`try`/`except Exception` converts the failure into one terminal `error`
event. -/
inductive RunOutcome where
  | preFailure (msg : String)
  | midFailure (frames : List (Option JVal)) (msg : String)
  | complete (frames : List (Option JVal))

/-- The full event sequence produced by one run of `stream_events`. -/
def streamEvents (env : GenieEnv) : RunOutcome → List JVal
  | .preFailure msg => [mkError msg]
  | .midFailure frames msg => processFrames env frames ++ [mkError msg]
  | .complete frames => processFrames env frames

/-! ## chat-app normalizer (mas_normalizer.py, function `normalize`)

Per decoded frame (a dict, given by its fields): the four recognized
discriminators are mapped to normalized events, and any other event type is
passed through unchanged (`yield event` at line 83). -/
def chatAppType (fs : List (String × JVal)) : Option String :=
  match lookupField fs "type" with
  | some (.str s) => some s
  | _ => none

/-- The body of `normalize` for one decoded frame. -/
def normalizeChatApp (fs : List (String × JVal)) : List JVal :=
  let etype := chatAppType fs
  if etype = some "text_delta" then
    [mkObj [("type", .str "text.delta"),
            ("delta", (lookupField fs "delta").getD (.str ""))]]
  else if etype = some "tool_call" then
    [mkObj [("type", .str "tool.call"),
            ("name", (lookupField fs "name").getD (.str "unknown_tool")),
            ("args", (lookupField fs "args").getD (.str ""))]]
  else if etype = some "tool_output" then
    [mkObj [("type", .str "tool.output"),
            ("name", (lookupField fs "name").getD (.str "unknown_tool")),
            ("output", (lookupField fs "output").getD (.str ""))]]
  else if etype = some "error" then
    [mkObj [("type", .str "error"),
            ("message", (lookupField fs "message").getD (.str "Unknown error"))]]
  else [.obj fs]

/-! ## Event-shape helpers used by the theorems -/

/-- Is an emitted event a `chart.reference` event? -/
def isChart (e : JVal) : Bool := evType e == some "chart.reference"

/-- Is an emitted event an `error` event? -/
def isError (e : JVal) : Bool := evType e == some "error"

/-- Number of `chart.reference` events in an emitted sequence. -/
def countCharts (l : List JVal) : Nat := (l.filter isChart).length

/-- A Genie environment in which every remote call raises (the service is
unreachable); pattern-0 extractions never consult it. -/
def envIdle : GenieEnv :=
  ⟨.exn "service unavailable", fun _ => .exn "service unavailable"⟩

theorem evType_mkObj (t : String) (fs : List (String × JVal)) :
    evType (mkObj (("type", .str t) :: fs)) = some t := by
  simp [evType, mkObj, jGet, lookupField]

theorem deltaBranch_types (ev : JVal) :
    ∀ e ∈ deltaBranch ev, evType e = some "text.delta" := by
  intro e he
  unfold deltaBranch at he
  repeat split at he
  all_goals first
    | (rw [List.mem_singleton] at he; subst he; exact evType_mkObj _ _)
    | exact absurd he (List.not_mem_nil e)

theorem doneBranch_types (ev : JVal) :
    ∀ e ∈ doneBranch ev, evType e = some "tool.output" := by
  intro e he
  unfold doneBranch at he
  split at he
  case h_1 itf heq =>
    split at he
    · rw [List.mem_singleton] at he
      subst he; exact evType_mkObj _ _
    · simp at he
  case h_2 => simp at he

theorem chartEvents_types (env : GenieEnv) (outf : List (String × JVal)) :
    ∀ e ∈ chartEvents env outf, evType e = some "chart.reference" := by
  intro e he
  unfold chartEvents at he
  split at he
  case h_1 r qm heq =>
    rw [List.mem_singleton] at he
    subst he; exact evType_mkObj _ _
  case h_2 => simp at he

theorem toolTail_types (env : GenieEnv) (name output : JVal) :
    ∀ e ∈ toolTail env name output, evType e = some "chart.reference" := by
  intro e he
  unfold toolTail at he
  repeat split at he
  all_goals first
    | exact chartEvents_types env _ e he
    | exact absurd he (List.not_mem_nil e)

theorem resultBranch_types (env : GenieEnv) (ev : JVal) :
    ∀ e ∈ resultBranch env ev,
      evType e = some "tool.output" ∨ evType e = some "chart.reference" := by
  intro e he
  unfold resultBranch at he
  split at he
  case h_1 rf heq =>
    rw [List.mem_cons] at he
    rcases he with he | he
    · subst he; exact Or.inl (evType_mkObj _ _)
    · exact Or.inr (toolTail_types env _ _ e he)
  case h_2 => exact absurd he (List.not_mem_nil e)

theorem choicesBranch_types (ev : JVal) :
    ∀ e ∈ choicesBranch ev, evType e = some "text.delta" := by
  intro e he
  unfold choicesBranch at he
  repeat split at he
  all_goals first
    | (rw [List.mem_singleton] at he; subst he; exact evType_mkObj _ _)
    | exact absurd he (List.not_mem_nil e)

theorem addedBranch_types (ev : JVal) :
    ∀ e ∈ addedBranch ev, evType e = some "tool.call" := by
  intro e he
  unfold addedBranch at he
  repeat split at he
  all_goals first
    | (rw [List.mem_singleton] at he; subst he; exact evType_mkObj _ _)
    | exact absurd he (List.not_mem_nil e)

/-- Every event emitted for a decoded frame by the backend normalizer carries
one of the four frame-level kinds (never `error`, which only the transport
boundary emits). -/
theorem normalizeEvent_types (env : GenieEnv) (ev : JVal) :
    ∀ e ∈ normalizeEvent env ev,
      evType e = some "text.delta" ∨ evType e = some "tool.call" ∨
      evType e = some "tool.output" ∨ evType e = some "chart.reference" := by
  intro e he
  unfold normalizeEvent at he
  split_ifs at he
  · exact Or.inl (deltaBranch_types ev e he)
  · exact Or.inr (Or.inr (Or.inl (doneBranch_types ev e he)))
  · rcases resultBranch_types env ev e he with h | h
    · exact Or.inr (Or.inr (Or.inl h))
    · exact Or.inr (Or.inr (Or.inr h))
  · exact Or.inl (choicesBranch_types ev e he)
  · exact Or.inr (Or.inl (addedBranch_types ev e he))
  · simp at he

theorem normalizeEvent_not_error (env : GenieEnv) (ev : JVal) :
    ∀ e ∈ normalizeEvent env ev, isError e = false := by
  intro e he
  rcases normalizeEvent_types env ev e he with h | h | h | h <;>
    simp [isError, h]

theorem processFrames_no_error (env : GenieEnv) (frames : List (Option JVal)) :
    (processFrames env frames).filter isError = [] := by
  rw [List.filter_eq_nil_iff]
  intro e he
  unfold processFrames at he
  rw [List.mem_flatten] at he
  obtain ⟨l, hl, hel⟩ := he
  rw [List.mem_map] at hl
  obtain ⟨f, _, hfl⟩ := hl
  subst hfl
  cases f with
  | none => exact absurd hel (List.not_mem_nil e)
  | some ev => simp [normalizeEvent_not_error env ev e hel]

theorem isError_mkError (msg : String) : isError (mkError msg) = true := by
  simp [isError, mkError, evType_mkObj]

/-- C4 -- Transport failure semantics: when authentication fails, the HTTP
response is non-2xx, or a transport-level exception occurs before any frame
(`preFailure`) or in mid-stream after some frames (`midFailure`), the
generator yields exactly one `error` event, it is the final event of the
sequence, and the sequence then terminates (it is a finite list); no
exception escapes the generator's boundary, which is modelled by
`streamEvents` being a total function. -/
theorem transport_failure_single_error (env : GenieEnv) (msg : String)
    (frames : List (Option JVal)) :
    streamEvents env (.preFailure msg) = [mkError msg] ∧
    (streamEvents env (.midFailure frames msg)).filter isError = [mkError msg] ∧
    (streamEvents env (.midFailure frames msg)).getLast? = some (mkError msg) := by
  refine ⟨rfl, ?_, ?_⟩
  · rw [streamEvents, List.filter_append, processFrames_no_error]
    simp [isError_mkError]
  · rw [streamEvents, List.getLast?_append]
    rfl

/-- C6 -- Malformed-frame resilience: a malformed JSON frame (one whose
decode raised `JSONDecodeError`, modelled `none`) placed anywhere in a
stream of otherwise-valid frames is skipped: the emitted events are exactly
those of the remaining frames, in their original order, with no early
termination — a parse failure on one frame is independent of all others. -/
theorem malformed_frame_skipped (env : GenieEnv) (pre post : List (Option JVal)) :
    processFrames env (pre ++ none :: post) = processFrames env (pre ++ post) := by
  simp [processFrames]

/-- C5 counterexample: the chat-app `normalize` passes a successfully decoded
frame with an unrecognized discriminator through unchanged (`yield event`),
and that emitted event's type is not one of the five normalized kinds — the
claim's "no emitted event at all ... never passed through" is false for
this normalizer. -/
theorem chatapp_passthrough_counterexample :
    normalizeChatApp [("type", .str "response.created"), ("x", .num 1)] =
      [.obj [("type", .str "response.created"), ("x", .num 1)]] ∧
    evType (.obj [("type", .str "response.created"), ("x", .num 1)]) ∉
      ([some "text.delta", some "tool.call", some "tool.output",
        some "chart.reference", some "error"] : List (Option String)) := by
  exact ⟨rfl, by decide⟩

/-- C5 (amended) -- every event emitted by the backend `stream_events`
normalizer for a decoded frame carries a `type` field equal to one of the
five normalized kinds, and a decoded frame whose discriminator matches none
of the handled kinds (and has no truthy `choices` key) yields no event
there; the chat-app `normalize`, however, passes a decoded frame with an
unrecognized discriminator through unchanged, so its output is not
restricted to the five kinds. -/
theorem normalized_event_type_closed (env : GenieEnv) (ev ev2 : JVal)
    (fs : List (String × JVal))
    (h : chatAppType fs ∉ ([some "text_delta", some "tool_call",
          some "tool_output", some "error"] : List (Option String)))
    (hu1 : evType ev2 ∉ ([some "response.output_text.delta",
          some "response.output_item.done", some "response.function_call_result",
          some "response.tool_result", some "response.output_item.added"] :
          List (Option String)))
    (hu2 : truthyO (jGet ev2 "choices") = false) :
    (∀ e ∈ normalizeEvent env ev,
       evType e ∈ ([some "text.delta", some "tool.call", some "tool.output",
                    some "chart.reference", some "error"] : List (Option String))) ∧
    normalizeEvent env ev2 = [] ∧
    normalizeChatApp fs = [.obj fs] := by
  refine ⟨?_, ?_, ?_⟩
  · intro e he
    rcases normalizeEvent_types env ev e he with h' | h' | h' | h' <;> simp [h']
  · have hu3 : evType ev2 ≠ some "response.output_text.delta" :=
      fun hq => hu1 (by simp [hq])
    have hu4 : evType ev2 ≠ some "response.output_item.done" :=
      fun hq => hu1 (by simp [hq])
    have hu5 : ¬ (evType ev2 = some "response.function_call_result" ∨
        evType ev2 = some "response.tool_result") := by
      rintro (hq | hq) <;> exact hu1 (by simp [hq])
    have hu6 : evType ev2 ≠ some "response.output_item.added" :=
      fun hq => hu1 (by simp [hq])
    unfold normalizeEvent
    rw [if_neg hu3, if_neg hu4, if_neg hu5, if_neg (by simp [hu2]), if_neg hu6]
  · have h1 : chatAppType fs ≠ some "text_delta" := fun hq => h (by simp [hq])
    have h2 : chatAppType fs ≠ some "tool_call" := fun hq => h (by simp [hq])
    have h3 : chatAppType fs ≠ some "tool_output" := fun hq => h (by simp [hq])
    have h4 : chatAppType fs ≠ some "error" := fun hq => h (by simp [hq])
    simp [normalizeChatApp, h1, h2, h3, h4]

theorem normalized_event_type_closed_witness :
    (∀ e ∈ normalizeEvent envIdle .null,
       evType e ∈ ([some "text.delta", some "tool.call", some "tool.output",
                    some "chart.reference", some "error"] : List (Option String))) ∧
    normalizeEvent envIdle (.obj [("type", .str "response.reasoning.delta"),
                                  ("delta", .str "thinking")]) = [] ∧
    normalizeChatApp [("type", .str "response.done")] =
      [.obj [("type", .str "response.done")]] :=
  normalized_event_type_closed envIdle .null
    (.obj [("type", .str "response.reasoning.delta"), ("delta", .str "thinking")])
    [("type", .str "response.done")] (by decide) (by decide) rfl

/-! ## C2: when is a chart event emitted? -/

/-- The exact condition under which the result branch emits a chart event:
the tool name is a string matching the analytics keywords, the output is a
dict, and the extraction cascade returns coordinates. -/
def resultChartCond (env : GenieEnv) (ev : JVal) : Bool :=
  match (jGet ev "result").getD (.obj []) with
  | .obj rf =>
    (match (lookupField rf "name").getD (.str "agent") with
     | .str s =>
       keywordMatch s &&
         (match (lookupField rf "output").getD (.str "Complete") with
          | .obj outf => (runCascade env outf).isSome
          | _ => false)
     | _ => false)
  | _ => false

/-- The exact condition under which one frame emits a chart event. -/
def chartCond (env : GenieEnv) (ev : JVal) : Bool :=
  if evType ev = some "response.function_call_result" ∨
     evType ev = some "response.tool_result"
  then resultChartCond env ev else false

theorem countCharts_eq_zero (l : List JVal)
    (h : ∀ e ∈ l, isChart e = false) : countCharts l = 0 := by
  rw [countCharts, List.length_eq_zero, List.filter_eq_nil_iff]
  intro e he
  simp [h e he]

theorem isChart_of_type (e : JVal) (t : String) (h : evType e = some t)
    (ht : t ≠ "chart.reference") : isChart e = false := by
  simp [isChart, h, ht]

theorem countCharts_deltaBranch (ev : JVal) : countCharts (deltaBranch ev) = 0 :=
  countCharts_eq_zero _ (fun e he =>
    isChart_of_type e _ (deltaBranch_types ev e he) (by decide))

theorem countCharts_doneBranch (ev : JVal) : countCharts (doneBranch ev) = 0 :=
  countCharts_eq_zero _ (fun e he =>
    isChart_of_type e _ (doneBranch_types ev e he) (by decide))

theorem countCharts_choicesBranch (ev : JVal) : countCharts (choicesBranch ev) = 0 :=
  countCharts_eq_zero _ (fun e he =>
    isChart_of_type e _ (choicesBranch_types ev e he) (by decide))

theorem countCharts_addedBranch (ev : JVal) : countCharts (addedBranch ev) = 0 :=
  countCharts_eq_zero _ (fun e he =>
    isChart_of_type e _ (addedBranch_types ev e he) (by decide))

theorem countCharts_chartEvents (env : GenieEnv) (outf : List (String × JVal)) :
    countCharts (chartEvents env outf) =
      if (runCascade env outf).isSome then 1 else 0 := by
  unfold chartEvents
  split
  case h_1 r qm heq =>
    rw [heq]
    simp [countCharts, isChart, mkChartEvent, evType_mkObj]
  case h_2 heq =>
    rw [heq]
    simp [countCharts]

theorem countCharts_cons (e : JVal) (l : List JVal) (h : isChart e = false) :
    countCharts (e :: l) = countCharts l := by
  simp [countCharts, List.filter_cons, h]

/-- The chart condition of the extraction tail alone. -/
def toolChartCond (env : GenieEnv) (name output : JVal) : Bool :=
  match name with
  | .str s =>
    keywordMatch s &&
      (match output with
       | .obj outf => (runCascade env outf).isSome
       | _ => false)
  | _ => false

theorem countCharts_toolTail (env : GenieEnv) (name output : JVal) :
    countCharts (toolTail env name output) =
      if toolChartCond env name output then 1 else 0 := by
  cases name with
  | str s =>
    by_cases hk : keywordMatch s = true
    · cases output with
      | obj outf => simp [toolTail, toolChartCond, hk, countCharts_chartEvents]
      | null => simp [toolTail, toolChartCond, hk, countCharts]
      | bool b => simp [toolTail, toolChartCond, hk, countCharts]
      | num n => simp [toolTail, toolChartCond, hk, countCharts]
      | str t => simp [toolTail, toolChartCond, hk, countCharts]
      | arr xs => simp [toolTail, toolChartCond, hk, countCharts]
    · simp [toolTail, toolChartCond, hk, countCharts]
  | null => simp [toolTail, toolChartCond, countCharts]
  | bool b => simp [toolTail, toolChartCond, countCharts]
  | num n => simp [toolTail, toolChartCond, countCharts]
  | arr xs => simp [toolTail, toolChartCond, countCharts]
  | obj fs => simp [toolTail, toolChartCond, countCharts]

theorem countCharts_resultBranch (env : GenieEnv) (ev : JVal) :
    countCharts (resultBranch env ev) =
      if resultChartCond env ev then 1 else 0 := by
  unfold resultBranch resultChartCond
  cases hres : (jGet ev "result").getD (.obj []) with
  | obj rf =>
    rw [countCharts_cons _ _ (isChart_of_type _ _ (evType_mkObj _ _) (by decide)),
      countCharts_toolTail]
    cases hname : (lookupField rf "name").getD (.str "agent") with
    | str s =>
      cases hout : (lookupField rf "output").getD (.str "Complete") with
      | obj outf => simp [toolChartCond, hname, hout]
      | null => simp [toolChartCond, hname, hout]
      | bool b => simp [toolChartCond, hname, hout]
      | num n => simp [toolChartCond, hname, hout]
      | str t => simp [toolChartCond, hname, hout]
      | arr xs => simp [toolChartCond, hname, hout]
    | null => simp [toolChartCond, hname]
    | bool b => simp [toolChartCond, hname]
    | num n => simp [toolChartCond, hname]
    | arr xs => simp [toolChartCond, hname]
    | obj fs => simp [toolChartCond, hname]
  | null => simp [countCharts]
  | bool b => simp [countCharts]
  | num n => simp [countCharts]
  | str t => simp [countCharts]
  | arr xs => simp [countCharts]

/-- C2 (amended) -- a `chart.reference` event is emitted for a frame exactly
when the frame is a tool-result frame whose tool name matches the analytics
keywords, whose output is a dict, and for which the extraction cascade
produced a coordinate object without raising (a truthy non-sliceable
attachment id aborts the cascade at the eager log f-string); the cascade's
guards check key *presence* (plus a truthy attachment id in the
genie-object pattern), not non-emptiness of the four coordinate values, so
a reference with empty-string fields can be emitted.  At most one chart
event is emitted per frame. -/
theorem chart_emission_iff_cascade (env : GenieEnv) (ev : JVal) :
    countCharts (normalizeEvent env ev) = if chartCond env ev then 1 else 0 := by
  unfold normalizeEvent chartCond
  by_cases h1 : evType ev = some "response.output_text.delta"
  · have hc : ¬(evType ev = some "response.function_call_result" ∨
        evType ev = some "response.tool_result") := by rw [h1]; decide
    rw [if_pos h1, if_neg hc, countCharts_deltaBranch]
    decide
  · rw [if_neg h1]
    by_cases h2 : evType ev = some "response.output_item.done"
    · have hc : ¬(evType ev = some "response.function_call_result" ∨
          evType ev = some "response.tool_result") := by rw [h2]; decide
      rw [if_pos h2, if_neg hc, countCharts_doneBranch]
      decide
    · rw [if_neg h2]
      by_cases h3 : evType ev = some "response.function_call_result" ∨
          evType ev = some "response.tool_result"
      · rw [if_pos h3, if_pos h3, countCharts_resultBranch]
      · rw [if_neg h3, if_neg h3]
        by_cases h4 : truthyO (jGet ev "choices") = true
        · rw [if_pos h4, countCharts_choicesBranch]
          decide
        · rw [if_neg h4]
          by_cases h5 : evType ev = some "response.output_item.added"
          · rw [if_pos h5, countCharts_addedBranch]
            decide
          · rw [if_neg h5]; rfl

/-! ## Concrete frames used by counterexamples and witnesses -/

/-- A `response.function_call_result` frame for analytics tool `genie_tool`
with the given dict output. -/
def resultFrame (out : List (String × JVal)) : JVal :=
  .obj [("type", .str "response.function_call_result"),
        ("result", .obj [("name", .str "genie_tool"), ("output", .obj out)])]

/-- Flat coordinates whose `space_id` is the empty string. -/
def outEmptySpace : List (String × JVal) :=
  [("space_id", .str ""), ("conversation_id", .str "c1"),
   ("message_id", .str "m1"), ("attachment_id", .str "a1")]

/-- C2 counterexample: a tool-result frame whose flat coordinates carry an
*empty* `space_id` still emits a `chart.reference` event (the pattern
guards test key presence, not value non-emptiness), contradicting the
claim that a frame with an empty field yields zero chart events. -/
theorem chart_empty_field_counterexample :
    (normalizeEvent envIdle (resultFrame outEmptySpace)).filter isChart =
      [mkChartEvent ⟨.str "", .str "c1", .str "m1", .str "a1"⟩ none] := by
  rfl

/-- A complete pattern-0 genie object. -/
def genieObjOk : List (String × JVal) :=
  [("space_id", .str "s1"), ("conversation_id", .str "c1"),
   ("message_id", .str "m1"),
   ("attachments", .arr [.obj [("attachment_id", .str "a1")]])]

/-- The same pattern-0 output with an extra flat `conversation_id` key. -/
def outGenieAndConv : List (String × JVal) :=
  [("genie", .obj genieObjOk), ("conversation_id", .str "c9")]

/-- C3 counterexample: with output `{"genie": <complete coordinates>}` a
chart is emitted, but adding a flat `conversation_id` key (and nothing
else) makes the conversation-id pattern fire *after* the successful genie
pattern: its lookup (no space id) returns `None`, which overwrites the
complete coordinates, and no chart is emitted — a later pattern does
override and discard an earlier successful pattern's result. -/
theorem cascade_override_counterexample :
    countCharts (normalizeEvent envIdle (resultFrame [("genie", .obj genieObjOk)])) = 1 ∧
    countCharts (normalizeEvent envIdle (resultFrame outGenieAndConv)) = 0 :=
  ⟨rfl, rfl⟩

/-- C3 (amended) -- pattern 0 (the genie object) is evaluated first, and
patterns 1-3 then form their own first-match `if`/`elif` chain evaluated
regardless of pattern 0's success: when pattern 1's guard (all four flat
keys) matches, its coordinates replace whatever pattern 0 produced; when a
later guard matches with a failed lookup, the assigned `None` discards
pattern 0's coordinates; pattern 0's result survives only when no later
guard fires.  Pattern 0's display metadata always survives. -/
theorem chart_cascade_override (env : GenieEnv) (out : List (String × JVal))
    (g0 : Option GenieRef) (qm : Option QMeta)
    (h0 : pattern0 out = .val (g0, qm)) :
    (fourKeys out = true → runCascade env out = some (refOfFields out, qm)) ∧
    (laterPatterns env out = none →
      runCascade env out = g0.elim none (fun r => some (r, qm))) ∧
    (laterPatterns env out = some none → runCascade env out = none) := by
  refine ⟨?_, ?_, ?_⟩
  · intro hf
    have hl : laterPatterns env out = some (some (refOfFields out)) := by
      unfold laterPatterns; rw [if_pos hf]
    unfold runCascade
    rw [h0, hl]
  · intro hl
    unfold runCascade
    rw [h0, hl]
    cases g0 <;> rfl
  · intro hl
    unfold runCascade
    rw [h0, hl]

theorem chart_cascade_override_witness :
    runCascade envIdle outEmptySpace = some (refOfFields outEmptySpace, none) ∧
    runCascade envIdle [] = none ∧
    runCascade envIdle outGenieAndConv = none := by
  refine ⟨(chart_cascade_override envIdle outEmptySpace none none rfl).1 rfl, ?_, ?_⟩
  · exact (chart_cascade_override envIdle [] none none rfl).2.1 rfl
  · exact (chart_cascade_override envIdle outGenieAndConv
      (some ⟨.str "s1", .str "c1", .str "m1", .str "a1"⟩) none rfl).2.2 rfl

/-- An item-added frame whose tool arguments arrive as a JSON-encoded
string. -/
def frameArgsString : JVal :=
  .obj [("type", .str "response.output_item.added"),
        ("item", .obj [("type", .str "function_call"),
                       ("name", .str "execute_query"),
                       ("arguments", .str "\x7b\"limit\": 10\x7d")])]

/-- C7 counterexample: the item-added branch attaches
`item.get("arguments", {})` unchanged, so a JSON-encoded string argument is
emitted as that string — it is not decoded into a mapping, and there is no
fallback key; the claim's decode-with-fallback behavior does not exist in
the code. -/
theorem toolcall_args_counterexample :
    normalizeEvent envIdle frameArgsString =
      [mkObj [("type", .str "tool.call"),
              ("name", .str "execute_query"),
              ("args", .str "\x7b\"limit\": 10\x7d")]] := by
  rfl

/-- C7 (amended) -- for every `tool.call` emitted from an item-added frame,
the arguments value is attached to the event exactly as it appears in the
frame (a JSON-encoded string stays a string, with no decoding and no
fallback key), and arguments absent from the item default to an empty
mapping. -/
theorem toolcall_args_passthrough (env : GenieEnv) (ev : JVal)
    (itf : List (String × JVal))
    (h1 : evType ev = some "response.output_item.added")
    (h2 : jGet ev "item" = some (.obj itf))
    (h3 : lookupField itf "type" = some (.str "function_call"))
    (h4 : truthyO (jGet ev "choices") = false) :
    normalizeEvent env ev =
      [mkObj [("type", .str "tool.call"),
              ("name", (lookupField itf "name").getD (.str "unknown")),
              ("args", (lookupField itf "arguments").getD (.obj []))]] := by
  have hd1 : ¬ evType ev = some "response.output_text.delta" := by rw [h1]; decide
  have hd2 : ¬ evType ev = some "response.output_item.done" := by rw [h1]; decide
  have hd3 : ¬ (evType ev = some "response.function_call_result" ∨
      evType ev = some "response.tool_result") := by rw [h1]; decide
  unfold normalizeEvent
  rw [if_neg hd1, if_neg hd2, if_neg hd3, if_neg (by simp [h4]), if_pos h1]
  simp [addedBranch, h2, h3]

theorem toolcall_args_passthrough_witness :
    normalizeEvent envIdle
      (.obj [("type", .str "response.output_item.added"),
             ("item", .obj [("type", .str "function_call"),
                            ("name", .str "router")])]) =
      [mkObj [("type", .str "tool.call"), ("name", .str "router"),
              ("args", .obj [])]] := by
  exact toolcall_args_passthrough envIdle _
    [("type", .str "function_call"), ("name", .str "router")] rfl rfl rfl rfl

/-- A pattern-0 genie object whose attachment carries a query object with
only a `query_text` (no title, no description). -/
def genieObjQueryTextOnly : List (String × JVal) :=
  [("space_id", .str "s1"), ("conversation_id", .str "c1"),
   ("message_id", .str "m1"),
   ("attachments", .arr [.obj [("attachment_id", .str "a1"),
                               ("query", .obj [("query_text", .str "SELECT 1")])]])]

/-- C9 counterexample: when the attachment carries a query object with no
title and no description, the emitted chart's title is the generic
"Query Result" but its subtitle is `None` (because the built metadata dict
always contains a `description` key, whose `None` value is what
`query_meta.get("description", "Click to view chart")` returns) — not the
claimed "Click to view chart". -/
theorem chart_subtitle_counterexample :
    (normalizeEvent envIdle
        (resultFrame [("genie", .obj genieObjQueryTextOnly)])).filter isChart =
      [mkChartEvent ⟨.str "s1", .str "c1", .str "m1", .str "a1"⟩
        (some ⟨.str "Query Result", .null, .str "SELECT 1"⟩)] ∧
    jGet (mkChartEvent ⟨.str "s1", .str "c1", .str "m1", .str "a1"⟩
        (some ⟨.str "Query Result", .null, .str "SELECT 1"⟩)) "subtitle" =
      some .null :=
  ⟨rfl, rfl⟩

/-- C9 (amended) -- the generic title "Query Result" and subtitle
"Click to view chart" are used only when no query metadata object was
found at all; when a (truthy) query object is present, the chart's title is
the metadata's title (defaulting to "Query Result" when the query object
has none) and its subtitle is the metadata's description verbatim — `None`
when the query object has no description, not the generic subtitle. -/
theorem chart_title_defaults (r : GenieRef) (qm : QMeta) (av : JVal)
    (qf : List (String × JVal)) (arest : List JVal)
    (hq : truthy (.obj qf) = true)
    (ht : lookupField qf "title" = none)
    (hd : lookupField qf "description" = none) :
    (jGet (mkChartEvent r none) "title" = some (.str "Query Result") ∧
     jGet (mkChartEvent r none) "subtitle" = some (.str "Click to view chart")) ∧
    (jGet (mkChartEvent r (some qm)) "title" = some qm.title ∧
     jGet (mkChartEvent r (some qm)) "subtitle" = some qm.description) ∧
    queryMetaOf [("attachments",
        .arr (.obj [("attachment_id", av), ("query", .obj qf)] :: arest))] =
      .val (some ⟨.str "Query Result", .null,
                  (lookupField qf "query_text").getD .null⟩) := by
  refine ⟨⟨rfl, rfl⟩, ⟨rfl, rfl⟩, ?_⟩
  simp [queryMetaOf, lookupField, hq, ht, hd]

theorem chart_title_defaults_witness :
    (jGet (mkChartEvent ⟨.str "s", .str "c", .str "m", .str "a"⟩ none) "title" =
       some (.str "Query Result") ∧
     jGet (mkChartEvent ⟨.str "s", .str "c", .str "m", .str "a"⟩ none) "subtitle" =
       some (.str "Click to view chart")) ∧
    (jGet (mkChartEvent ⟨.str "s", .str "c", .str "m", .str "a"⟩
        (some ⟨.str "T", .str "D", .null⟩)) "title" = some (.str "T") ∧
     jGet (mkChartEvent ⟨.str "s", .str "c", .str "m", .str "a"⟩
        (some ⟨.str "T", .str "D", .null⟩)) "subtitle" = some (.str "D")) ∧
    queryMetaOf [("attachments",
        .arr [.obj [("attachment_id", .str "a"),
                    ("query", .obj [("query_text", .str "SELECT 2")])]])] =
      .val (some ⟨.str "Query Result", .null,
                  (lookupField [("query_text", JVal.str "SELECT 2")] "query_text").getD .null⟩) := by
  exact chart_title_defaults ⟨.str "s", .str "c", .str "m", .str "a"⟩
    ⟨.str "T", .str "D", .null⟩ (.str "a")
    [("query_text", .str "SELECT 2")] [] rfl rfl rfl

theorem toolTail_nondict (env : GenieEnv) (name out : JVal)
    (h : ∀ fs, out ≠ .obj fs) : toolTail env name out = [] := by
  cases name with
  | str s =>
    by_cases hk : keywordMatch s = true
    · cases out with
      | obj fs => exact absurd rfl (h fs)
      | null => simp [toolTail, hk]
      | bool b => simp [toolTail, hk]
      | num n => simp [toolTail, hk]
      | str t => simp [toolTail, hk]
      | arr xs => simp [toolTail, hk]
    · simp [toolTail, hk]
  | null => rfl
  | bool b => rfl
  | num n => rfl
  | arr xs => rfl
  | obj fs => rfl

/-- C10 -- a tool-result frame whose `output` field is not a dict (a string,
list, number, boolean or null) yields exactly the `tool.output` event with
the stringified value; chart extraction is never attempted for it, even
when the tool name matches the analytics keywords and the string content
itself encodes a complete coordinate set, so no `chart.reference` is
emitted for that frame. -/
theorem nondict_output_no_chart (env : GenieEnv) (ev : JVal)
    (rf : List (String × JVal)) (out : JVal)
    (h1 : evType ev = some "response.function_call_result" ∨
          evType ev = some "response.tool_result")
    (h2 : jGet ev "result" = some (.obj rf))
    (h3 : (lookupField rf "output").getD (.str "Complete") = out)
    (h4 : ∀ fs, out ≠ .obj fs) :
    normalizeEvent env ev =
      [mkObj [("type", .str "tool.output"),
              ("name", (lookupField rf "name").getD (.str "agent")),
              ("output", .str (pyStr out))]] := by
  have hd1 : ¬ evType ev = some "response.output_text.delta" := by
    rcases h1 with h | h <;> rw [h] <;> decide
  have hd2 : ¬ evType ev = some "response.output_item.done" := by
    rcases h1 with h | h <;> rw [h] <;> decide
  unfold normalizeEvent
  rw [if_neg hd1, if_neg hd2, if_pos h1]
  unfold resultBranch
  rw [h2]
  simp only [Option.getD_some, h3]
  rw [toolTail_nondict env _ out h4]

theorem nondict_output_no_chart_witness :
    normalizeEvent envIdle
      (.obj [("type", .str "response.tool_result"),
             ("result", .obj [("name", .str "agent-sales-analytics"),
                ("output", .str "\x7b\"space_id\": \"s1\", \"conversation_id\": \"c1\", \"message_id\": \"m1\", \"attachment_id\": \"a1\"\x7d")])]) =
      [mkObj [("type", .str "tool.output"),
              ("name", .str "agent-sales-analytics"),
              ("output", .str "\x7b\"space_id\": \"s1\", \"conversation_id\": \"c1\", \"message_id\": \"m1\", \"attachment_id\": \"a1\"\x7d")]] := by
  exact nondict_output_no_chart envIdle _
    [("name", .str "agent-sales-analytics"),
     ("output", .str "\x7b\"space_id\": \"s1\", \"conversation_id\": \"c1\", \"message_id\": \"m1\", \"attachment_id\": \"a1\"\x7d")]
    (.str "\x7b\"space_id\": \"s1\", \"conversation_id\": \"c1\", \"message_id\": \"m1\", \"attachment_id\": \"a1\"\x7d")
    (Or.inr rfl) rfl rfl (fun fs h => by cases h)

/-! ## C8: the secondary lookup -/

/-- A Genie environment whose newest message's detail fetch raises while an
older completed message carries attachment `a1`. -/
def envNewestRaises : GenieEnv :=
  ⟨.ok [⟨"m1", "COMPLETED"⟩, ⟨"m2", "COMPLETED"⟩],
   fun id => if id = "m2" then .exn "boom" else .ok ⟨[⟨some "a1"⟩]⟩⟩

/-- C8 counterexample: the detail fetch for the newest message `m2` raises,
yet the lookup does not return `None` — the inner `except` merely skips
`m2` and the lookup returns coordinates from the older message `m1`,
contradicting the claim that any exception raised by the remote lookup
yields no coordinates. -/
theorem genie_lookup_exception_counterexample :
    envNewestRaises.getMessage "m2" = .exn "boom" ∧
    envNewestRaises.listMessages = .ok [⟨"m1", "COMPLETED"⟩, ⟨"m2", "COMPLETED"⟩] ∧
    lookupCoords envNewestRaises (.str "c1") (some (.str "s1")) =
      some ⟨.str "s1", .str "c1", .str "m1", .str "a1"⟩ :=
  ⟨rfl, rfl, rfl⟩

/-- C8 (amended) -- with a truthy space id the lookup scans the listed
messages newest-first and returns coordinates from the first `COMPLETED`
message whose detail fetch succeeds and yields a (truthy) attachment id,
taking the first such attachment's id; a message whose detail fetch raises
is skipped (inner `except ... continue`), not fatal; the lookup returns
`None` — and never propagates an exception — when no space id was supplied,
when the space id is falsy, or when listing the messages raises. -/
theorem genie_lookup_semantics
    (env env2 : GenieEnv) (conv sv sv2 : JVal) (e e2 : String)
    (m m' : GMsg) (rest : List GMsg) (det : GMsgDetails) (aid : String)
    (hst : m.status = "COMPLETED") (hexn : env.getMessage m.id = .exn e)
    (hst' : m'.status = "COMPLETED") (hok : env.getMessage m'.id = .ok det)
    (haid : firstTruthyAttachment det.attachments = some aid)
    (hsv : truthy sv = false) (henv2 : env2.listMessages = .exn e2) :
    scanMsgs env sv2 conv (m :: rest) = scanMsgs env sv2 conv rest ∧
    scanMsgs env sv2 conv (m' :: rest) = some ⟨sv2, conv, .str m'.id, .str aid⟩ ∧
    lookupCoords env conv none = none ∧
    lookupCoords env conv (some sv) = none ∧
    lookupCoords env2 conv (some sv2) = none := by
  refine ⟨?_, ?_, rfl, ?_, ?_⟩
  · simp [scanMsgs, hst, hexn]
  · simp [scanMsgs, hst', hok, haid]
  · simp [lookupCoords, hsv]
  · by_cases h : truthy sv2 = true
    · simp [lookupCoords, h, henv2]
    · simp [lookupCoords, h]

theorem genie_lookup_semantics_witness :
    scanMsgs envNewestRaises (.str "s1") (.str "c1")
        [⟨"m2", "COMPLETED"⟩, ⟨"m1", "COMPLETED"⟩] =
      scanMsgs envNewestRaises (.str "s1") (.str "c1") [⟨"m1", "COMPLETED"⟩] ∧
    scanMsgs envNewestRaises (.str "s1") (.str "c1")
        [⟨"m1", "COMPLETED"⟩, ⟨"m1", "COMPLETED"⟩] =
      some ⟨.str "s1", .str "c1", .str "m1", .str "a1"⟩ ∧
    lookupCoords envNewestRaises (.str "c1") none = none ∧
    lookupCoords envNewestRaises (.str "c1") (some (.str "")) = none ∧
    lookupCoords envIdle (.str "c1") (some (.str "s1")) = none := by
  exact genie_lookup_semantics envNewestRaises envIdle (.str "c1") (.str "")
    (.str "s1") "boom" "service unavailable" ⟨"m2", "COMPLETED"⟩
    ⟨"m1", "COMPLETED"⟩ [⟨"m1", "COMPLETED"⟩] ⟨[⟨some "a1"⟩]⟩ "a1"
    rfl rfl rfl rfl rfl rfl rfl
